import Mathlib

/-!
Verification of `rfc3986/validators.py` (URI validation logic).

The development shallowly embeds the module's data model and operations:
Python strings become `String`, Python `None`-able values become `Option`,
Python `set` becomes `Finset`, the `require_presence_of` dict becomes an
insertion-ordered association list, and code that can raise returns
`Except PyError` (or `Option` for pure helpers).  The module's collaborators
that are not part of the provided source (`misc` matchers, `normalizers`)
are modelled from the specification and marked as such.
-/

deriving instance DecidableEq for Except

namespace RFC3986

/-! ## Python string and integer primitives -/

/-- Index of the first occurrence of `sep` in a character list
(the search behind Python's `str.split(sep, 1)` and the scanning in the
grammar matchers). -/
def idxOf? (sep : Char) : List Char → Option Nat
  | [] => none
  | c :: rest => if c = sep then some 0 else (idxOf? sep rest).map (· + 1)

/-- Python `str.split(sep)` with no maxsplit, on a character list:
`"" ↦ [[]]`, `"a.b" ↦ [[a],[b]]`, `"a..b" ↦ [[a],[],[b]]`. -/
def splitOnChar (sep : Char) : List Char → List (List Char)
  | [] => [[]]
  | c :: rest =>
    let r := splitOnChar sep rest
    if c = sep then [] :: r
    else
      match r with
      | h :: t => (c :: h) :: t
      | [] => [[c]]

/-- Python `s.split(sep)` on strings. -/
def pySplit (s : String) (sep : Char) : List String :=
  (splitOnChar sep s.toList).map String.mk

/-- Python `s.split(sep, 1)`: at most one split, at the first occurrence. -/
def pySplit1 (s : String) (sep : Char) : List String :=
  match idxOf? sep s.toList with
  | none => [s]
  | some i => [String.mk (s.toList.take i), String.mk (s.toList.drop (i + 1))]

/-- Python `str.lower()` (ASCII case folding suffices for the inputs the
module handles). -/
def pyLower (s : String) : String := String.mk (s.toList.map Char.toLower)

/-- The numeric value of a list of decimal digit characters. -/
def digitsToNat (cs : List Char) : Nat :=
  cs.foldl (fun a c => a * 10 + (c.toNat - 48)) 0

/-- Python `int(s, base=10)`: an optional sign followed by one or more
decimal digits parses to an integer; anything else raises `ValueError`
(`none` here).  Python additionally strips surrounding whitespace and
accepts grouping underscores; no input in this module exercises that. -/
def pyint (s : String) : Option Int :=
  match s.toList with
  | '-' :: rest =>
    if rest ≠ [] ∧ rest.all Char.isDigit then some (-(digitsToNat rest : Int)) else none
  | '+' :: rest =>
    if rest ≠ [] ∧ rest.all Char.isDigit then some ((digitsToNat rest : Int)) else none
  | cs =>
    if cs ≠ [] ∧ cs.all Char.isDigit then some ((digitsToNat cs : Int)) else none

/-- Python string `<=`: lexicographic comparison of code points. -/
def listCharLe : List Char → List Char → Bool
  | [], _ => true
  | _ :: _, [] => false
  | x :: xs, y :: ys =>
    if x.toNat < y.toNat then true
    else if y.toNat < x.toNat then false
    else listCharLe xs ys

/-- Python string `<=` on `String`. -/
def strLeB (a b : String) : Bool := listCharLe a.toList b.toList

/-- Insert a string into a `strLeB`-sorted list, keeping it sorted. -/
def insSorted (x : String) : List String → List String
  | [] => [x]
  | y :: ys => if strLeB x y then x :: y :: ys else y :: insSorted x ys

/-- Python `sorted` on a list of strings (ascending code-point order;
insertion sort — for a total order the sorted permutation is unique, so
this agrees with any sort Python uses). -/
def pySorted (l : List String) : List String := l.foldr insSorted []

/-- `true` when a list of strings is ascending under `strLeB`. -/
def strSortedB : List String → Bool
  | [] => true
  | [_] => true
  | x :: y :: rest => strLeB x y && strSortedB (y :: rest)

/-! ## Data model: parsed URIs, exceptions, dictionaries -/

/-- `rfc3986.uri.URIReference` as `validate` consumes it: seven optional
string components (the port, too, is carried as a string by the parser). -/
structure URIReference where
  scheme : Option String
  userinfo : Option String
  host : Option String
  port : Option String
  path : Option String
  query : Option String
  fragment : Option String
  deriving DecidableEq

/-- The exceptions `validators.py` raises: Python `ValueError` (from
`require_components` and from `int`), and the two `rfc3986.exceptions`
classes constructed in this module, carrying exactly the arguments the
call sites pass. -/
inductive PyError where
  | valueError (msg : String)
  | passwordForbidden (uri : URIReference)
  | missingComponentError (uri : URIReference) (components : List String)
  deriving DecidableEq

/-- Python `getattr(uri, component)` for the seven component names
(`ensure_required_components_exist` only ever reads these). -/
def uriGetattr (uri : URIReference) (name : String) : Option String :=
  if name = "scheme" then uri.scheme
  else if name = "userinfo" then uri.userinfo
  else if name = "host" then uri.host
  else if name = "port" then uri.port
  else if name = "path" then uri.path
  else if name = "query" then uri.query
  else if name = "fragment" then uri.fragment
  else none

/-- `d[k] = b` on an insertion-ordered dictionary: replace the value of an
existing key in place, otherwise append the new key at the end (Python
`dict` assignment semantics). -/
def dictSet : List (String × Bool) → String → Bool → List (String × Bool)
  | [], k, b => [(k, b)]
  | p :: rest, k, b => if p.1 = k then (k, b) :: rest else p :: dictSet rest k b

/-- `d.update({k: True for k in keys})`: set every key of `keys` to `True`,
in order. -/
def dictUpdate (d : List (String × Bool)) (keys : List String) : List (String × Bool) :=
  keys.foldl (fun acc k => dictSet acc k true) d

/-- `d[k]` as a lookup returning `none` for a missing key. -/
def dictLookup (d : List (String × Bool)) (k : String) : Option Bool :=
  (d.find? (fun p => decide (p.1 = k))).map (fun p => p.2)

/-! ## Collaborators missing from the provided source, modelled from the spec

`validators.py` imports `misc` (the compiled grammar matchers) and
`normalizers`; neither file is under the provided source tree, so they are
modelled from the specification (spec sections 4.1, 4.2 and 6). -/

/-- Modelled from the spec: `normalizers.normalize_scheme` (file missing from
the source tree) — "normalizes each scheme (case-fold per scheme
normalization rules)". -/
def normalize_scheme (s : String) : String := pyLower s

/-- Modelled from the spec: `normalizers.normalize_host` (file missing from
the source tree) — "normalizes each host"; host normalization is case
folding. -/
def normalize_host (s : String) : String := pyLower s

/-- RFC 3986 `unreserved`: ALPHA / DIGIT / "-" / "." / "_" / "~". -/
def unreservedChar (c : Char) : Bool :=
  c.isAlpha || c.isDigit || c = '-' || c = '.' || c = '_' || c = '~'

/-- RFC 3986 `sub-delims`: "!" / "$" / "&" / "'" / "(" / ")" / "*" / "+"
/ "," / ";" / "=" (the single quote written by code point). -/
def subDelimChar (c : Char) : Bool :=
  c = '!' || c = '$' || c = '&' || c = Char.ofNat 39 || c = '(' || c = ')' ||
  c = '*' || c = '+' || c = ',' || c = ';' || c = '='

/-- HEXDIG, both cases. -/
def isHexChar (c : Char) : Bool :=
  c.isDigit || (decide ('a' ≤ c) && decide (c ≤ 'f')) ||
    (decide ('A' ≤ c) && decide (c ≤ 'F'))

/-- Characters drawn from `allowed`, with `pct-encoded` octets (`"%" HEXDIG
HEXDIG`) permitted anywhere. -/
def pctScan (allowed : Char → Bool) : List Char → Bool
  | [] => true
  | c :: rest =>
    if c = '%' then
      match rest with
      | a :: b :: rest2 => isHexChar a && isHexChar b && pctScan allowed rest2
      | _ => false
    else allowed c && pctScan allowed rest

/-- RFC 3986 `userinfo`: `*( unreserved / pct-encoded / sub-delims / ":" )`. -/
def userinfoOk (cs : List Char) : Bool :=
  pctScan (fun c => unreservedChar c || subDelimChar c || c = ':') cs

/-- RFC 3986 `reg-name`: `*( unreserved / pct-encoded / sub-delims )`. -/
def regNameOk (cs : List Char) : Bool :=
  pctScan (fun c => unreservedChar c || subDelimChar c) cs

/-- RFC 3986 `dec-octet`: a decimal number 0–255 with no extra leading
zeros. -/
def decOctet (cs : List Char) : Bool :=
  match cs with
  | [c] => c.isDigit
  | [c1, c2] => (c1 != '0') && c1.isDigit && c2.isDigit
  | [c1, c2, c3] =>
    (c1 = '1' && c2.isDigit && c3.isDigit) ||
    (c1 = '2' && decide ('0' ≤ c2) && decide (c2 ≤ '4') && c3.isDigit) ||
    (c1 = '2' && c2 = '5' && decide ('0' ≤ c3) && decide (c3 ≤ '5'))
  | _ => false

/-- RFC 3986 `IPv4address`: four dot-separated `dec-octet`s. -/
def ipv4Chars (cs : List Char) : Bool :=
  match splitOnChar '.' cs with
  | [a, b, c, d] => decOctet a && decOctet b && decOctet c && decOctet d
  | _ => false

/-- RFC 3986 `h16`: one to four HEXDIG. -/
def h16Ok (cs : List Char) : Bool :=
  decide (1 ≤ cs.length) && decide (cs.length ≤ 4) && cs.all isHexChar

/-- Index of the first `"::"` in a character list. -/
def idxOfDoubleColon : List Char → Option Nat
  | ':' :: ':' :: _ => some 0
  | _ :: rest => (idxOfDoubleColon rest).map (· + 1)
  | [] => none

/-- An IPv6 address with no `"::"` compression: eight colon-separated `h16`
groups, or six groups followed by an `IPv4address` tail. -/
def ipv6NoCompress (cs : List Char) : Bool :=
  let ps := splitOnChar ':' cs
  ps.all (fun p => !p.isEmpty) &&
    ((decide (ps.length = 8) && ps.all h16Ok) ||
      (decide (ps.length = 7) && (ps.take 6).all h16Ok && ipv4Chars (ps.getLastD [])))

/-- An IPv6 address split at its one `"::"`: the group-count bound of the
RFC ABNF (`"::"` stands for at least one 16-bit group; the tail may end in
an `IPv4address`, which accounts for two groups). -/
def ipv6Compressed (left right : List Char) : Bool :=
  let l := if left.isEmpty then [] else splitOnChar ':' left
  let r := if right.isEmpty then [] else splitOnChar ':' right
  l.all (fun p => !p.isEmpty && h16Ok p) &&
    r.all (fun p => !p.isEmpty) &&
    (match r.getLast? with
     | none => decide (l.length ≤ 7)
     | some lastGroup =>
       if ipv4Chars lastGroup then
         r.dropLast.all h16Ok && decide (l.length + r.length + 1 ≤ 7)
       else r.all h16Ok && decide (l.length + r.length ≤ 7))

/-- RFC 3986 `IPv6address`. -/
def ipv6Ok (cs : List Char) : Bool :=
  match idxOfDoubleColon cs with
  | none => ipv6NoCompress cs
  | some i => ipv6Compressed (cs.take i) (cs.drop (i + 2))

/-- RFC 3986 `IPvFuture`: `"v" 1*HEXDIG "." 1*( unreserved / sub-delims /
":" )`. -/
def ipvFutureOk (cs : List Char) : Bool :=
  match cs with
  | 'v' :: rest =>
    (match idxOf? '.' rest with
     | some i =>
       let hexs := rest.take i
       let tail := rest.drop (i + 1)
       !hexs.isEmpty && hexs.all isHexChar && !tail.isEmpty &&
         tail.all (fun c => unreservedChar c || subDelimChar c || c = ':')
     | none => false)
  | _ => false

/-- RFC 3986 `port`: `*DIGIT` (possibly empty). -/
def portDigitsOk (cs : List Char) : Bool := cs.all Char.isDigit

/-- Modelled from the spec: `misc.SUBAUTHORITY_MATCHER` (file missing from
the source tree) — an anchored full-string match of the RFC 3986 authority
grammar `[ userinfo "@" ] host [ ":" port ]`, where `host` is a bracketed
IP literal (IPv6 or IPvFuture), an IPv4 literal, or a `reg-name`, with
percent-encoded octets permitted wherever userinfo/host allows them. -/
def SUBAUTHORITY_MATCHER (s : String) : Bool :=
  let cs := s.toList
  let uiAndRest :=
    match idxOf? '@' cs with
    | some i => (userinfoOk (cs.take i), cs.drop (i + 1))
    | none => (true, cs)
  uiAndRest.1 &&
    (match uiAndRest.2 with
     | '[' :: rest =>
       (match idxOf? ']' rest with
        | some j =>
          let interior := rest.take j
          let after := rest.drop (j + 1)
          (ipv6Ok interior || ipvFutureOk interior) &&
            (match after with
             | [] => true
             | ':' :: pcs => portDigitsOk pcs
             | _ => false)
        | none => false)
     | hostport =>
       (match idxOf? ':' hostport with
        | some j =>
          (ipv4Chars (hostport.take j) || regNameOk (hostport.take j)) &&
            portDigitsOk (hostport.drop (j + 1))
        | none => ipv4Chars hostport || regNameOk hostport))

/-- Modelled from the spec: `misc.IPv4_MATCHER` (file missing from the
source tree) — the "lightweight IPv4-shape matcher, not the strict 0–255
range check": four dot-separated runs of one to three decimal digits. -/
def IPv4_MATCHER (s : String) : Bool :=
  let ps := splitOnChar '.' s.toList
  decide (ps.length = 4) &&
    ps.all (fun p => decide (1 ≤ p.length) && decide (p.length ≤ 3) && p.all Char.isDigit)

/-! ## The embedding of `validators.py` -/

/-- `Validator.COMPONENT_NAMES`: the fixed frozenset of the seven component
names (only membership is ever used). -/
def COMPONENT_NAMES : List String :=
  ["scheme", "userinfo", "host", "port", "path", "query", "fragment"]

/-- The `Validator` object's state: three allow-list sets, the password
flag, and the `require_presence_of` dict (an insertion-ordered mapping, as
in Python). -/
structure Validator where
  allowed_schemes : Finset String
  allowed_hosts : Finset String
  allowed_ports : Finset Int
  allow_password : Bool
  require_presence_of : List (String × Bool)
  deriving DecidableEq

/-- `Validator.__init__`: empty allow-lists, passwords allowed, no
component required. -/
def Validator.init : Validator where
  allowed_schemes := ∅
  allowed_hosts := ∅
  allowed_ports := ∅
  allow_password := true
  require_presence_of :=
    [("scheme", false), ("userinfo", false), ("host", false), ("port", false),
     ("path", false), ("query", false), ("fragment", false)]

/-- `Validator.allow_schemes(*schemes)`: add the normalized form of each
scheme to `allowed_schemes`. -/
def Validator.allow_schemes (v : Validator) (schemes : List String) : Validator :=
  { v with allowed_schemes :=
      schemes.foldl (fun acc s => insert (normalize_scheme s) acc) v.allowed_schemes }

/-- `Validator.allow_hosts(*hosts)`: add the normalized form of each host
to `allowed_hosts`. -/
def Validator.allow_hosts (v : Validator) (hosts : List String) : Validator :=
  { v with allowed_hosts :=
      hosts.foldl (fun acc h => insert (normalize_host h) acc) v.allowed_hosts }

/-- `Validator.allow_ports(*ports)`: for each argument in order,
`int(port, base=10)` (which raises on a non-numeric string, aborting the
loop with the state reached so far), and add the value to `allowed_ports`
only when it lies in `[0, 65535]`. -/
def Validator.allow_ports : Validator → List String → Validator × Except PyError Unit
  | v, [] => (v, .ok ())
  | v, port :: rest =>
    match pyint port with
    | none =>
      (v, .error (.valueError ("invalid literal for int() with base 10: " ++ port)))
    | some port_int =>
      let v2 :=
        if 0 ≤ port_int ∧ port_int ≤ 65535 then
          { v with allowed_ports := insert port_int v.allowed_ports }
        else v
      Validator.allow_ports v2 rest

/-- `Validator.allow_use_of_password()`. -/
def Validator.allow_use_of_password (v : Validator) : Validator :=
  { v with allow_password := true }

/-- `Validator.forbid_use_of_password()`. -/
def Validator.forbid_use_of_password (v : Validator) : Validator :=
  { v with allow_password := false }

/-- `Validator.require_components(*components)`: lower-case every name,
then scan them (raising `ValueError` at the first name outside
`COMPONENT_NAMES`, before any flag is touched), then set
`require_presence_of[name] = True` for each name. -/
def Validator.require_components (v : Validator) (components : List String) :
    Validator × Except PyError Unit :=
  let comps := components.map pyLower
  match comps.find? (fun c => !(COMPONENT_NAMES.contains c)) with
  | some c =>
    (v, .error (.valueError ("\"" ++ c ++ "\" is not a valid component")))
  | none =>
    ({ v with require_presence_of := dictUpdate v.require_presence_of comps }, .ok ())

/-- `check_password(uri)` (module-level): return silently when `userinfo`
is absent or empty; split it at the first `":"` with maxsplit 1; raise
`PasswordForbidden(uri)` exactly when the split produced two parts. -/
def check_password (uri : URIReference) : Except PyError Unit :=
  match uri.userinfo with
  | none => .ok ()
  | some userinfo =>
    if userinfo = "" then .ok ()
    else
      let credentials := pySplit1 userinfo ':'
      if credentials.length ≤ 1 then .ok ()
      else .error (.passwordForbidden uri)

/-- `ensure_required_components_exist(uri, required_components)`: collect
the required component names whose attribute on `uri` is `None`, sort them,
and raise `MissingComponentError(uri, *missing)` when any are missing. -/
def ensure_required_components_exist (uri : URIReference)
    (required_components : List String) : Except PyError Unit :=
  let missing_components :=
    pySorted (required_components.filter (fun c => (uriGetattr uri c).isNone))
  if missing_components.isEmpty then .ok ()
  else .error (.missingComponentError uri missing_components)

/-- `Validator.validate(uri)`: run `check_password` when passwords are
forbidden, then the required-components check; the method writes none of
the validator's fields, so the state it leaves behind is returned alongside
the outcome. -/
def Validator.validate (v : Validator) (uri : URIReference) :
    Validator × Except PyError Unit :=
  match (if v.allow_password = false then check_password uri else .ok ()) with
  | .error e => (v, .error e)
  | .ok _ =>
    let required_components :=
      (v.require_presence_of.filter (fun p => p.2)).map (fun p => p.1)
    if required_components.isEmpty then (v, .ok ())
    else (v, ensure_required_components_exist uri required_components)

/-- `is_valid(value, matcher, require)` (module-level): a required value
must be present and match; an optional value must be absent or match. -/
def is_valid (value : Option String) (matcher : String → Bool) (require : Bool) : Bool :=
  if require then
    match value with
    | none => false
    | some v => matcher v
  else
    match value with
    | none => true
    | some v => matcher v

/-- The list comprehension `[int(byte, base=10) for byte in ...]`: every
element is parsed (a parse failure anywhere raises, i.e. yields `none`). -/
def intsOf : List String → Option (List Int)
  | [] => some []
  | p :: rest =>
    match pyint p, intsOf rest with
    | some n, some ns => some (n :: ns)
    | _, _ => none

/-- `valid_ipv4_host_address(host)` (module-level): split on `"."` and
test `all(0 <= int(byte, base=10) <= 255 for each byte)`; a byte that is
not a decimal integer raises `ValueError` (`none`). -/
def valid_ipv4_host_address (host : String) : Option Bool :=
  (intsOf (pySplit host '.')).map
    (fun ns => ns.all (fun n => decide (0 ≤ n) && decide (n ≤ 255)))

/-- `authority_is_valid(authority, host=None, require=False)`
(module-level): grammar-match the authority; when that passed and a host
was supplied that matches the loose IPv4 shape, answer with the strict
byte-range check instead. -/
def authority_is_valid (authority : Option String) (host : Option String)
    (require : Bool) : Option Bool :=
  let validated := is_valid authority SUBAUTHORITY_MATCHER require
  match host with
  | some h =>
    if validated && IPv4_MATCHER h then valid_ipv4_host_address h
    else some validated
  | none => some validated

/-- The component names whose `require_presence_of` flag is true, in dict
order (the list `validate` builds). -/
def requiredOf (v : Validator) : List String :=
  (v.require_presence_of.filter (fun p => p.2)).map (fun p => p.1)

/-- The sorted list of required component names absent from `uri` (the list
`ensure_required_components_exist` builds). -/
def missingOf (v : Validator) (uri : URIReference) : List String :=
  pySorted ((requiredOf v).filter (fun c => (uriGetattr uri c).isNone))

/-! ## Helper lemmas -/

theorem listCharLe_total (a b : List Char) :
    listCharLe a b = true ∨ listCharLe b a = true := by
  induction a generalizing b with
  | nil => exact Or.inl rfl
  | cons x xs ih =>
    cases b with
    | nil => exact Or.inr rfl
    | cons y ys =>
      by_cases hxy : x.toNat < y.toNat
      · exact Or.inl (by simp [listCharLe, hxy])
      · by_cases hyx : y.toNat < x.toNat
        · exact Or.inr (by simp [listCharLe, hyx, hxy])
        · rcases ih ys with h | h
          · exact Or.inl (by simp [listCharLe, hxy, hyx, h])
          · exact Or.inr (by simp [listCharLe, hxy, hyx, h])

theorem strLeB_total (a b : String) : strLeB a b = true ∨ strLeB b a = true :=
  listCharLe_total a.toList b.toList

theorem strSortedB_cons_cons (a b : String) (l : List String) :
    strSortedB (a :: b :: l) = (strLeB a b && strSortedB (b :: l)) := rfl

theorem insSorted_cons (x y : String) (ys : List String) :
    insSorted x (y :: ys) = if strLeB x y then x :: y :: ys else y :: insSorted x ys := rfl

theorem strSortedB_insSorted (x : String) (l : List String)
    (h : strSortedB l = true) : strSortedB (insSorted x l) = true := by
  induction l with
  | nil => rfl
  | cons y ys ih =>
    rw [insSorted_cons]
    by_cases hxy : strLeB x y = true
    · rw [if_pos hxy, strSortedB_cons_cons, hxy, Bool.true_and]
      exact h
    · rw [if_neg hxy]
      have hyx : strLeB y x = true := (strLeB_total x y).resolve_left hxy
      cases ys with
      | nil => simp [insSorted, strSortedB, hyx]
      | cons z zs =>
        have h2 : strLeB y z = true ∧ strSortedB (z :: zs) = true := by
          rw [strSortedB_cons_cons] at h
          exact Bool.and_eq_true_iff.mp h
        have htail : strSortedB (insSorted x (z :: zs)) = true := ih h2.2
        rw [insSorted_cons] at htail ⊢
        by_cases hxz : strLeB x z = true
        · rw [if_pos hxz] at htail ⊢
          rw [strSortedB_cons_cons, hyx, Bool.true_and]
          exact htail
        · rw [if_neg hxz] at htail ⊢
          rw [strSortedB_cons_cons, h2.1, Bool.true_and]
          exact htail

theorem strSortedB_pySorted (l : List String) : strSortedB (pySorted l) = true := by
  induction l with
  | nil => rfl
  | cons x xs ih => exact strSortedB_insSorted x (pySorted xs) ih

theorem idxOf?_eq_none_iff (sep : Char) (l : List Char) :
    idxOf? sep l = none ↔ sep ∉ l := by
  induction l with
  | nil => simp [idxOf?]
  | cons c rest ih =>
    by_cases hc : c = sep
    · subst hc
      simp [idxOf?]
    · have hcs : ¬ sep = c := fun h => hc h.symm
      rw [show idxOf? sep (c :: rest) = (idxOf? sep rest).map (· + 1) from by
        simp [idxOf?, hc]]
      simp [Option.map_eq_none', ih, hcs]

theorem check_password_cases (u : URIReference) :
    check_password u = .ok () ∨ check_password u = .error (.passwordForbidden u) := by
  unfold check_password
  cases u.userinfo with
  | none => exact Or.inl rfl
  | some ui =>
    by_cases h0 : ui = ""
    · simp [h0]
    · simp only [h0, if_false]
      by_cases h1 : (pySplit1 ui ':').length ≤ 1
      · simp [h1]
      · simp [h1]

theorem check_password_error_iff (u : URIReference) :
    check_password u = .error (.passwordForbidden u) ↔
      ∃ ui, u.userinfo = some ui ∧ ui ≠ "" ∧ ':' ∈ ui.toList := by
  unfold check_password
  cases hu : u.userinfo with
  | none => simp [hu]
  | some ui =>
    by_cases h0 : ui = ""
    · simp [hu, h0]
    · simp only [hu, h0, if_false]
      have hsplit : (pySplit1 ui ':').length ≤ 1 ↔ ':' ∉ ui.toList := by
        unfold pySplit1
        cases hidx : idxOf? ':' ui.toList with
        | none =>
          simp only [hidx, List.length_singleton]
          simpa [String.toList] using (idxOf?_eq_none_iff ':' ui.toList).mp hidx
        | some i =>
          have hne : idxOf? ':' ui.toList ≠ none := by rw [hidx]; simp
          have hmem : ':' ∈ ui.toList := by
            by_contra hnot
            exact hne ((idxOf?_eq_none_iff ':' ui.toList).mpr hnot)
          have hmem2 : ':' ∈ ui.data := hmem
          simp [hidx, hmem2]
      by_cases h1 : (pySplit1 ui ':').length ≤ 1
      · have hnotmem : ':' ∉ ui.data := hsplit.mp h1
        simp [h1, h0, hnotmem]
      · have hmem : ':' ∈ ui.data := by
          by_contra hnot
          exact h1 (hsplit.mpr hnot)
        simp [h1, h0, hmem]

theorem ensure_required_ne_password (u u' : URIReference) (r : List String) :
    ensure_required_components_exist u r ≠ .error (.passwordForbidden u') := by
  unfold ensure_required_components_exist
  by_cases h : (pySorted (r.filter (fun c => (uriGetattr u c).isNone))).isEmpty = true
  · simp [h]
  · simp [h]

theorem dictLookup_nil (k : String) : dictLookup [] k = none := rfl

theorem dictLookup_cons (p : String × Bool) (rest : List (String × Bool)) (k : String) :
    dictLookup (p :: rest) k = if p.1 = k then some p.2 else dictLookup rest k := by
  by_cases h : p.1 = k
  · simp [dictLookup, List.find?_cons_of_pos, h]
  · simp [dictLookup, List.find?_cons_of_neg, h]

theorem dictLookup_dictSet_self (d : List (String × Bool)) (k : String) (b : Bool) :
    dictLookup (dictSet d k b) k = some b := by
  induction d with
  | nil => simp [dictSet, dictLookup_cons]
  | cons p rest ih =>
    by_cases hp : p.1 = k
    · simp [dictSet, hp, dictLookup_cons]
    · simp [dictSet, hp, dictLookup_cons, ih]

theorem dictLookup_dictSet_other (d : List (String × Bool)) (k k2 : String) (b : Bool)
    (h : k2 ≠ k) : dictLookup (dictSet d k b) k2 = dictLookup d k2 := by
  induction d with
  | nil => simp [dictSet, dictLookup_cons, Ne.symm h, dictLookup_nil]
  | cons p rest ih =>
    by_cases hp : p.1 = k
    · simp [dictSet, hp, dictLookup_cons, Ne.symm h]
    · simp [dictSet, hp, dictLookup_cons, ih]

theorem dictLookup_dictUpdate_not_mem (d : List (String × Bool)) (keys : List String)
    (k : String) (h : k ∉ keys) : dictLookup (dictUpdate d keys) k = dictLookup d k := by
  induction keys generalizing d with
  | nil => rfl
  | cons k0 rest ih =>
    have hk0 : k ≠ k0 := fun hh => h (hh ▸ List.mem_cons_self k0 rest)
    have hrest : k ∉ rest := fun hh => h (List.mem_cons_of_mem k0 hh)
    calc dictLookup (dictUpdate d (k0 :: rest)) k
        = dictLookup (dictUpdate (dictSet d k0 true) rest) k := rfl
      _ = dictLookup (dictSet d k0 true) k := ih (dictSet d k0 true) hrest
      _ = dictLookup d k := dictLookup_dictSet_other d k0 k true hk0

theorem dictLookup_dictUpdate_mem (d : List (String × Bool)) (keys : List String)
    (k : String) (h : k ∈ keys) : dictLookup (dictUpdate d keys) k = some true := by
  induction keys generalizing d with
  | nil => cases h
  | cons k0 rest ih =>
    by_cases hrest : k ∈ rest
    · exact ih (dictSet d k0 true) hrest
    · have hk0 : k = k0 := by
        rcases List.mem_cons.mp h with h' | h'
        · exact h'
        · exact absurd h' hrest
      calc dictLookup (dictUpdate d (k0 :: rest)) k
          = dictLookup (dictUpdate (dictSet d k0 true) rest) k := rfl
        _ = dictLookup (dictSet d k0 true) k :=
            dictLookup_dictUpdate_not_mem (dictSet d k0 true) rest k hrest
        _ = some true := hk0 ▸ dictLookup_dictSet_self d k0 true

theorem validate_eq (v : Validator) (u : URIReference) :
    v.validate u =
      match (if v.allow_password = false then check_password u else Except.ok ()) with
      | .error e => (v, .error e)
      | .ok _ =>
        if (requiredOf v).isEmpty then (v, Except.ok ())
        else (v, ensure_required_components_exist u (requiredOf v)) := rfl

theorem validate_of_check_error (v : Validator) (u : URIReference) (e : PyError)
    (hpw : v.allow_password = false) (hc : check_password u = .error e) :
    v.validate u = (v, .error e) := by
  rw [validate_eq, if_pos hpw, hc]

theorem validate_of_check_ok (v : Validator) (u : URIReference)
    (hok : (if v.allow_password = false then check_password u else Except.ok ()) = .ok ()) :
    v.validate u =
      if (requiredOf v).isEmpty then (v, Except.ok ())
      else (v, ensure_required_components_exist u (requiredOf v)) := by
  rw [validate_eq, hok]

theorem validate_fst (v : Validator) (u : URIReference) : (v.validate u).1 = v := by
  rw [validate_eq]
  cases hif : (if v.allow_password = false then check_password u else Except.ok ()) with
  | error e => rfl
  | ok a =>
    show (if (requiredOf v).isEmpty = true then ((v, Except.ok ()) : Validator × Except PyError Unit)
      else (v, ensure_required_components_exist u (requiredOf v))).1 = v
    split
    · rfl
    · rfl

theorem intsOf_all_iff (l : List String) :
    ((intsOf l).map (fun ns => ns.all (fun n => decide (0 ≤ n) && decide (n ≤ 255))) =
        some true) ↔
      ∀ p ∈ l, ∃ n : Int, pyint p = some n ∧ 0 ≤ n ∧ n ≤ 255 := by
  induction l with
  | nil => simp [intsOf]
  | cons p rest ih =>
    cases hp : pyint p with
    | none => simp [intsOf, hp]
    | some m =>
      cases hr : intsOf rest with
      | none =>
        have hL : intsOf (p :: rest) = none := by simp [intsOf, hp, hr]
        rw [hL]
        simp only [Option.map_none']
        constructor
        · intro h
          exact absurd h (by simp)
        · intro hall
          exfalso
          have h2 : ∀ q ∈ rest, ∃ n : Int, pyint q = some n ∧ 0 ≤ n ∧ n ≤ 255 :=
            fun q hq => hall q (List.mem_cons_of_mem p hq)
          have h3 := ih.mpr h2
          rw [hr] at h3
          simp at h3
      | some ns =>
        have hL : intsOf (p :: rest) = some (m :: ns) := by simp [intsOf, hp, hr]
        rw [hL, List.forall_mem_cons]
        have ihr := ih
        rw [hr] at ihr
        simp only [Option.map_some', Option.some_inj] at ihr ⊢
        simp only [List.all_cons, Bool.and_eq_true]
        apply and_congr
        · rw [hp]
          simp [Bool.and_eq_true, decide_eq_true_eq]
        · exact ihr

/-! ## Concrete fixtures used by the claim theorems -/

/-- A URI with every component absent. -/
def noneURI : URIReference :=
  { scheme := none, userinfo := none, host := none, port := none,
    path := none, query := none, fragment := none }

/-- A validator with all three allow-lists non-empty. -/
def c1v : Validator :=
  (((Validator.init.allow_schemes ["https"]).allow_hosts ["github.com"]).allow_ports
    ["443"]).1

/-- A URI whose scheme, host and port all fall outside `c1v`'s allow-lists. -/
def c1u : URIReference :=
  { noneURI with
      scheme := some "http"
      host := some "evil.com"
      port := some "80"
      path := some "/" }

/-- A URI whose userinfo is `"user:"`: a colon with an empty remainder. -/
def c3u : URIReference := { noneURI with userinfo := some "user:" }

/-- A validator that forbids passwords and requires a host. -/
def c4v : Validator :=
  ((Validator.init.forbid_use_of_password).require_components ["host"]).1

/-- A URI with a password in its userinfo and no host. -/
def c4u : URIReference := { noneURI with userinfo := some "a:b" }

/-- The validator of the spec's missing-component scenario: scheme, host and
path required. -/
def c4wv : Validator :=
  (Validator.init.require_components ["scheme", "host", "path"]).1

/-- A URI with only its scheme set. -/
def c4wu : URIReference := { noneURI with scheme := some "http" }

/-! ## The claims -/

/-- C1: the claim (and `validate`'s own docstring) says that a non-empty
`allowed_schemes` (resp. hosts, ports) set whose membership test fails for
the URI's component makes `validate` fail with `UnpermittedComponentError`.
The code's `validate` runs only the password check and the
required-components check: on a URI whose scheme, host and port all lie
outside the three non-empty allow-lists it succeeds, so the allow-lists are
never enforced. -/
theorem c1_validate_never_checks_allow_lists :
    c1v.allowed_schemes = {"https"} ∧ normalize_scheme "http" ∉ c1v.allowed_schemes ∧
    c1v.allowed_hosts = {"github.com"} ∧ normalize_host "evil.com" ∉ c1v.allowed_hosts ∧
    c1v.allowed_ports = {443} ∧ pyint "80" = some 80 ∧ (80 : Int) ∉ c1v.allowed_ports ∧
    (c1v.validate c1u).2 = Except.ok () := by decide

/-- C2 counterexample: the claim says `valid_ipv4_host_address` returns
true only when the split yields exactly 4 parts, and that `"1.2.3"`
therefore returns false; the code performs no part-count check and returns
true on `"1.2.3"`. -/
theorem c2_counterexample :
    valid_ipv4_host_address "1.2.3" = some true ∧ (pySplit "1.2.3" '.').length ≠ 4 := by
  decide

/-- C2 (amended): `valid_ipv4_host_address(host)` returns true iff every
dot-separated part of `host` parses as a base-10 integer in `[0, 255]` —
with no check on the number of parts; `"999.1.1.1"` still returns false
because 999 is out of range. -/
theorem c2_every_part_in_range_iff :
    (∀ host : String,
      (valid_ipv4_host_address host = some true ↔
        ∀ p ∈ pySplit host '.', ∃ n : Int, pyint p = some n ∧ 0 ≤ n ∧ n ≤ 255)) ∧
    valid_ipv4_host_address "999.1.1.1" = some false := by
  constructor
  · intro host
    exact intsOf_all_iff (pySplit host '.')
  · decide

/-- C3 counterexample: the claim says `validate` with passwords forbidden
fails with `PasswordForbidden` only when the userinfo has a non-empty
remainder after its first colon; on userinfo `"user:"` the remainder is
empty, yet the code raises `PasswordForbidden` (the check is on the number
of split parts, not on the remainder's content). -/
theorem c3_counterexample :
    (Validator.init.forbid_use_of_password.validate c3u).2 =
      .error (.passwordForbidden c3u) ∧
    c3u.userinfo = some "user:" ∧ pySplit1 "user:" ':' = ["user", ""] := by decide

/-- C3 (amended): for a validator with `allow_password` false, `validate`
fails with `PasswordForbidden` iff the URI's userinfo is present, non-empty
and contains a colon — regardless of what (if anything) follows the first
colon; `"user"` passes the password check, `"user:pass"` and `"user:"`
fail it. -/
theorem c3_password_forbidden_iff (v : Validator) (u : URIReference)
    (hpw : v.allow_password = false) :
    (v.validate u).2 = .error (.passwordForbidden u) ↔
      ∃ ui, u.userinfo = some ui ∧ ui ≠ "" ∧ ':' ∈ ui.toList := by
  rcases check_password_cases u with hc | hc
  · have hok : (if v.allow_password = false then check_password u else Except.ok ()) =
        .ok () := by rw [if_pos hpw, hc]
    rw [validate_of_check_ok v u hok]
    constructor
    · intro h
      exfalso
      by_cases hreq : (requiredOf v).isEmpty = true
      · rw [if_pos hreq] at h
        exact absurd h (by simp)
      · rw [if_neg hreq] at h
        exact ensure_required_ne_password u u (requiredOf v) h
    · intro hR
      exfalso
      have h2 := (check_password_error_iff u).mpr hR
      rw [hc] at h2
      exact absurd h2 (by simp)
  · rw [validate_of_check_error v u (.passwordForbidden u) hpw hc]
    constructor
    · intro _
      exact (check_password_error_iff u).mp hc
    · intro _
      rfl

/-- C3 witness: the amended theorem at the spec's own scenario
(`"user:pass"` with passwords forbidden). -/
theorem c3_witness :
    (Validator.init.forbid_use_of_password).allow_password = false ∧
    (((Validator.init.forbid_use_of_password).validate
        { noneURI with userinfo := some "user:pass" }).2 =
      .error (.passwordForbidden { noneURI with userinfo := some "user:pass" }) ↔
      ∃ ui, ({ noneURI with userinfo := some "user:pass" } : URIReference).userinfo =
          some ui ∧ ui ≠ "" ∧ ':' ∈ ui.toList) :=
  ⟨rfl, c3_password_forbidden_iff (Validator.init.forbid_use_of_password)
    { noneURI with userinfo := some "user:pass" } rfl⟩

/-- C4 counterexample: the claim quantifies over every Validator and URI,
but the password check runs first: with passwords forbidden, a required
host missing and a password present, `validate` fails with
`PasswordForbidden`, not with the claimed `MissingComponentError`. -/
theorem c4_counterexample :
    dictLookup c4v.require_presence_of "host" = some true ∧
    c4u.host = none ∧
    (c4v.validate c4u).2 = .error (.passwordForbidden c4u) ∧
    (∀ missing : List String,
      (c4v.validate c4u).2 ≠ .error (.missingComponentError c4u missing)) := by
  refine ⟨by decide, by decide, by decide, ?_⟩
  intro missing h
  rw [show (c4v.validate c4u).2 = .error (.passwordForbidden c4u) from by decide] at h
  exact absurd h (by simp)

/-- C4 (amended): provided the password check does not fail first (passwords
allowed, or `check_password` passes), a validator whose required components
are not all present makes `validate` fail with a single
`MissingComponentError` carrying the complete list of missing component
names sorted alphabetically. -/
theorem c4_missing_components_batched_sorted (v : Validator) (u : URIReference)
    (hpw : v.allow_password = true ∨ check_password u = .ok ())
    (hmiss : missingOf v u ≠ []) :
    (v.validate u).2 = .error (.missingComponentError u (missingOf v u)) ∧
    strSortedB (missingOf v u) = true := by
  have hok : (if v.allow_password = false then check_password u else Except.ok ()) =
      .ok () := by
    rcases hpw with h | h
    · rw [if_neg (by simp [h])]
    · by_cases hb : v.allow_password = false
      · rw [if_pos hb]
        exact h
      · rw [if_neg hb]
  have hreq : (requiredOf v).isEmpty = false := by
    cases hre : requiredOf v with
    | nil =>
      exfalso
      apply hmiss
      unfold missingOf
      rw [hre]
      rfl
    | cons a l => rfl
  rw [validate_of_check_ok v u hok, if_neg (by simp [hreq])]
  constructor
  · show ensure_required_components_exist u (requiredOf v) = _
    unfold ensure_required_components_exist
    show (if (missingOf v u).isEmpty = true then (Except.ok () : Except PyError Unit)
      else .error (.missingComponentError u (missingOf v u))) = _
    rw [if_neg (by simp [hmiss])]
  · exact strSortedB_pySorted _

/-- C4 witness: the spec's scenario — scheme, host and path required, only
the scheme present — fails with exactly the sorted list
`["host", "path"]`. -/
theorem c4_witness :
    (c4wv.allow_password = true ∨ check_password c4wu = .ok ()) ∧
    missingOf c4wv c4wu ≠ [] ∧
    ((c4wv.validate c4wu).2 = .error (.missingComponentError c4wu (missingOf c4wv c4wu)) ∧
      strSortedB (missingOf c4wv c4wu) = true) ∧
    missingOf c4wv c4wu = ["host", "path"] :=
  ⟨Or.inl (by decide), by decide,
    c4_missing_components_batched_sorted c4wv c4wu (Or.inl (by decide)) (by decide),
    by decide⟩

/-- C5: when the authority matches the subauthority grammar and the supplied
host matches the loose IPv4-shape matcher, `authority_is_valid` answers with
the strict byte-range IPv4 check on the host instead of the grammar
result. -/
theorem c5_strict_ipv4_overrides_grammar (a h : String) (req : Bool)
    (hauth : is_valid (some a) SUBAUTHORITY_MATCHER req = true)
    (hshape : IPv4_MATCHER h = true) :
    authority_is_valid (some a) (some h) req = valid_ipv4_host_address h := by
  simp [authority_is_valid, hauth, hshape]

/-- C5 witness: `"999.1.1.1"` passes the loose authority grammar and the
IPv4-shape matcher, yet `authority_is_valid` rejects it because 999 is out
of byte range. -/
theorem c5_witness :
    is_valid (some "999.1.1.1") SUBAUTHORITY_MATCHER false = true ∧
    IPv4_MATCHER "999.1.1.1" = true ∧
    authority_is_valid (some "999.1.1.1") (some "999.1.1.1") false = some false := by
  refine ⟨by decide, by decide, ?_⟩
  rw [c5_strict_ipv4_overrides_grammar "999.1.1.1" "999.1.1.1" false (by decide) (by decide)]
  decide

theorem allow_ports_cons_none (v : Validator) (q : String) (rest : List String)
    (hq : pyint q = none) :
    Validator.allow_ports v (q :: rest) =
      (v, .error (.valueError ("invalid literal for int() with base 10: " ++ q))) := by
  simp only [Validator.allow_ports]
  rw [hq]

theorem allow_ports_cons_some (v : Validator) (q : String) (rest : List String)
    (m : Int) (hq : pyint q = some m) :
    Validator.allow_ports v (q :: rest) =
      Validator.allow_ports
        (if 0 ≤ m ∧ m ≤ 65535 then { v with allowed_ports := insert m v.allowed_ports }
         else v) rest := by
  simp only [Validator.allow_ports]
  rw [hq]

/-- C6: when every argument of `allow_ports` parses as a base-10 integer,
the call succeeds, every parsed value inside `[0, 65535]` is added to
`allowed_ports`, and every parsed value outside that range is silently
dropped (membership in the resulting set is exactly the prior members plus
the in-range parsed values). -/
theorem c6_allow_ports_keeps_inrange_drops_outofrange (v : Validator)
    (ports : List String) (hall : ∀ p ∈ ports, (pyint p).isSome) :
    (Validator.allow_ports v ports).2 = .ok () ∧
    ∀ n : Int, (n ∈ (Validator.allow_ports v ports).1.allowed_ports ↔
      (n ∈ v.allowed_ports ∨ ∃ p ∈ ports, pyint p = some n ∧ 0 ≤ n ∧ n ≤ 65535)) := by
  induction ports generalizing v with
  | nil => simp [Validator.allow_ports]
  | cons p rest ih =>
    rcases Option.isSome_iff_exists.mp (hall p (List.mem_cons_self p rest)) with ⟨m, hm⟩
    have hrest : ∀ q ∈ rest, (pyint q).isSome :=
      fun q hq => hall q (List.mem_cons_of_mem p hq)
    rw [allow_ports_cons_some v p rest m hm]
    by_cases hinr : 0 ≤ m ∧ m ≤ 65535
    · rw [if_pos hinr]
      obtain ⟨hok, hmem⟩ := ih { v with allowed_ports := insert m v.allowed_ports } hrest
      refine ⟨hok, fun n => ?_⟩
      rw [hmem n]
      simp only [Finset.mem_insert]
      constructor
      · rintro (⟨rfl | hv⟩ | ⟨q, hq, hqn⟩)
        · exact Or.inr ⟨p, List.mem_cons_self p rest, hm, hinr.1, hinr.2⟩
        · exact Or.inl hv
        · exact Or.inr ⟨q, List.mem_cons_of_mem p hq, hqn⟩
      · rintro (hv | ⟨q, hq, hqn⟩)
        · exact Or.inl (Or.inr hv)
        · rcases List.mem_cons.mp hq with rfl | hq2
          · rw [hm] at hqn
            exact Or.inl (Or.inl (Option.some_inj.mp hqn.1).symm)
          · exact Or.inr ⟨q, hq2, hqn⟩
    · rw [if_neg hinr]
      obtain ⟨hok, hmem⟩ := ih v hrest
      refine ⟨hok, fun n => ?_⟩
      rw [hmem n]
      constructor
      · rintro (hv | ⟨q, hq, hqn⟩)
        · exact Or.inl hv
        · exact Or.inr ⟨q, List.mem_cons_of_mem p hq, hqn⟩
      · rintro (hv | ⟨q, hq, hqn⟩)
        · exact Or.inl hv
        · rcases List.mem_cons.mp hq with rfl | hq2
          · rw [hm] at hqn
            have hnm := (Option.some_inj.mp hqn.1).symm
            exact absurd ⟨hnm ▸ hqn.2.1, hnm ▸ hqn.2.2⟩ hinr
          · exact Or.inr ⟨q, hq2, hqn⟩

/-- C6 witness: `allow_ports("80", "443", "99999")` succeeds and the
resulting `allowed_ports` is exactly `{80, 443}` — the out-of-range
`"99999"` is silently dropped. -/
theorem c6_witness :
    (∀ p ∈ ["80", "443", "99999"], (pyint p).isSome) ∧
    ((Validator.allow_ports Validator.init ["80", "443", "99999"]).2 = .ok () ∧
      ∀ n : Int,
        (n ∈ (Validator.allow_ports Validator.init ["80", "443", "99999"]).1.allowed_ports ↔
          (n ∈ Validator.init.allowed_ports ∨
            ∃ p ∈ ["80", "443", "99999"], pyint p = some n ∧ 0 ≤ n ∧ n ≤ 65535))) ∧
    (Validator.allow_ports Validator.init ["80", "443", "99999"]).1.allowed_ports =
      {80, 443} :=
  ⟨by decide,
    c6_allow_ports_keeps_inrange_drops_outofrange Validator.init ["80", "443", "99999"]
      (by decide),
    by decide⟩

theorem require_components_eq (v : Validator) (comps : List String) :
    v.require_components comps =
      match (comps.map pyLower).find? (fun c => !(COMPONENT_NAMES.contains c)) with
      | some c => (v, .error (.valueError ("\"" ++ c ++ "\" is not a valid component")))
      | none =>
        ({ v with require_presence_of := dictUpdate v.require_presence_of (comps.map pyLower) },
          .ok ()) := rfl

/-- C7: `require_components` lower-cases every name first; it fails with a
`ValueError` (Python's invalid-argument error) at configuration time when
any lower-cased name is outside the fixed component set, and otherwise
succeeds with `require_presence_of[name] = True` for every given name. -/
theorem c7_require_components_checks_names (v : Validator) (comps : List String) :
    ((∃ c ∈ comps, pyLower c ∉ COMPONENT_NAMES) →
      ∃ msg, (v.require_components comps).2 = .error (.valueError msg)) ∧
    ((∀ c ∈ comps, pyLower c ∈ COMPONENT_NAMES) →
      (v.require_components comps).2 = .ok () ∧
      ∀ c ∈ comps,
        dictLookup (v.require_components comps).1.require_presence_of (pyLower c) =
          some true) := by
  constructor
  · rintro ⟨c, hc, hnotin⟩
    cases hf : (comps.map pyLower).find? (fun x => !(COMPONENT_NAMES.contains x)) with
    | some c2 =>
      refine ⟨"\"" ++ c2 ++ "\" is not a valid component", ?_⟩
      rw [require_components_eq, hf]
    | none =>
      exfalso
      have hpred := List.find?_eq_none.mp hf (pyLower c) (List.mem_map_of_mem pyLower hc)
      simp only [Bool.not_eq_true', Bool.not_eq_false] at hpred
      exact hnotin (by simpa using hpred)
  · intro hall
    have hf : (comps.map pyLower).find? (fun x => !(COMPONENT_NAMES.contains x)) = none := by
      apply List.find?_eq_none.mpr
      intro x hx
      rcases List.mem_map.mp hx with ⟨c, hc, rfl⟩
      simp [hall c hc]
    rw [require_components_eq, hf]
    refine ⟨rfl, ?_⟩
    intro c hc
    exact dictLookup_dictUpdate_mem v.require_presence_of (comps.map pyLower) (pyLower c)
      (List.mem_map_of_mem pyLower hc)

/-- C8: `validate` mutates none of the validator's fields — the state it
leaves behind is the state it was given — and running it again on that
state, with the same URI, produces the identical outcome. -/
theorem c8_validate_is_pure (v : Validator) (u : URIReference) :
    (v.validate u).1 = v ∧ (v.validate u).1.validate u = v.validate u := by
  refine ⟨validate_fst v u, ?_⟩
  rw [validate_fst v u]

/-- C9: when `require_components` fails because some name is invalid, the
`require_presence_of` mapping is left completely unchanged — the membership
scan over all the names runs before any flag is updated, so even valid
names listed before the invalid one are not set. -/
theorem c9_failed_require_components_changes_nothing (v : Validator)
    (comps : List String) (e : PyError)
    (h : (v.require_components comps).2 = .error e) :
    (v.require_components comps).1 = v := by
  rw [require_components_eq] at h ⊢
  cases hf : (comps.map pyLower).find? (fun x => !(COMPONENT_NAMES.contains x)) with
  | some c => rfl
  | none =>
    rw [hf] at h
    exact Except.noConfusion h

/-- C9 witness: `require_components("scheme", "bogus")` fails, and the
validator — including the flag for the valid `"scheme"` listed first — is
exactly the one it started as. -/
theorem c9_witness :
    (Validator.init.require_components ["scheme", "bogus"]).2 =
      .error (.valueError "\"bogus\" is not a valid component") ∧
    (Validator.init.require_components ["scheme", "bogus"]).1 = Validator.init :=
  ⟨by decide,
    c9_failed_require_components_changes_nothing Validator.init ["scheme", "bogus"]
      (.valueError "\"bogus\" is not a valid component") (by decide)⟩

/-- C10: when some argument of `allow_ports` does not parse as a base-10
integer, the call raises `ValueError` (it is not silently dropped; the
silent drop applies only to parsed values outside `[0, 65535]`). -/
theorem c10_allow_ports_raises_on_unparseable (v : Validator) (ports : List String)
    (h : ∃ p ∈ ports, pyint p = none) :
    ∃ msg, (Validator.allow_ports v ports).2 = .error (.valueError msg) := by
  induction ports generalizing v with
  | nil =>
    rcases h with ⟨p, hp, _⟩
    cases hp
  | cons q rest ih =>
    cases hq : pyint q with
    | none =>
      refine ⟨"invalid literal for int() with base 10: " ++ q, ?_⟩
      rw [allow_ports_cons_none v q rest hq]
    | some m =>
      rw [allow_ports_cons_some v q rest m hq]
      have hrest : ∃ p ∈ rest, pyint p = none := by
        rcases h with ⟨p, hp, hnone⟩
        rcases List.mem_cons.mp hp with rfl | hmem
        · rw [hq] at hnone
          cases hnone
        · exact ⟨p, hmem, hnone⟩
      exact ih _ hrest

/-- C10 witness: `allow_ports("80", "http")` raises a `ValueError` because
`"http"` is not a base-10 integer. -/
theorem c10_witness :
    (∃ p ∈ ["80", "http"], pyint p = none) ∧
    ∃ msg, (Validator.allow_ports Validator.init ["80", "http"]).2 =
      .error (.valueError msg) :=
  ⟨by decide, c10_allow_ports_raises_on_unparseable Validator.init ["80", "http"]
    (by decide)⟩

end RFC3986
